import Mathlib

/-!
Verification of the UUtils `DataAllocator` (src/base/DataAllocator.cpp).

The allocator is a bump arena over a singly linked chain of fixed-size
pools, with segregated exact-size free lists, a tail-shrink optimisation
in `deallocate`, and debug-only corruption checks.

The embedding translates `DataAllocator.cpp` into pure Lean functions over
an explicit state.  The header `DataAllocator.h` is not part of the given
sources, so the pieces it declares (the pool layout constant `CHUNK_SIZE`,
the free-list table type behind `freeMem`, and the opaque link encoding
`getNext`) are modelled from the specification: the spec describes the
table as a mapping from size class to a head block whose link is encoded
opaquely inside the block, and explicitly instructs implementers to treat
the free-list link and the debug size header as two independently defined
pieces of metadata rather than replicate the packed encoding.  We
therefore represent each free list structurally as a `List` of block
addresses and the debug size headers as a separate map; all pushes and
pops in the `.cpp` translate one-to-one onto this representation.

Addresses are natural numbers; `new Pool_t` is modelled by a fresh-base
counter, each pool occupying `chunkSize` words with a gap of two words
between pools (mirroring the `next` field and end sentinel, and the fact
that distinct C++ allocations are disjoint but need not be adjacent).
A returned null pointer is modelled by `Option.none`; a debug-assertion
failure (fail-fast abort) is modelled by the whole operation returning
`Option.none` at the outer level.
-/

namespace DataAlloc

/-- Build/platform configuration: `is64` is `sizeof(uintptr_t) == 8`
(a native word holds two external 32-bit items), `debug` is `!NDEBUG`
(assertions and the size-header word are compiled in), `chunkSize` is
the `CHUNK_SIZE` constant (pool capacity in words, and the bound checked
by `allocate`).  `CHUNK_SIZE` itself comes from the missing header, so it
is kept as a parameter. -/
structure Config where
  is64 : Bool
  debug : Bool
  chunkSize : Nat
deriving DecidableEq, Repr

/-- Function `arch_size` from DataAllocator.cpp lines 29-37: on a 64-bit platform a
requested count of 32-bit items is halved, rounded up; on 32-bit it is the
identity. -/
def arch_size (c : Config) (I : Nat) : Nat :=
  if c.is64 then (I + 1) / 2 else I

/-- Constant `DEBUG_OFFSET` from DataAllocator.cpp lines 23-27: one extra leading
word per block in debug builds, recording the declared size. -/
def DEBUG_OFFSET (c : Config) : Nat :=
  if c.debug then 1 else 0

/-- Pointwise update of a table, used for the free-list table and the
debug-header map. -/
def upd {α : Type} (f : Nat → α) (k : Nat) (v : α) : Nat → α :=
  fun i => if i = k then v else f i

/-- State of a `DataAllocator` object.

`memPool` is the chunk chain (base addresses, most recent first);
`freePtr`/`endFree` are the bump cursor and current chunk end;
`freeMem` is the Free-List Table.  Modelled from the spec: the table maps
a size class to its list of free blocks (head first); the `.cpp` reads it
only through head-pop (`get` plus reassignment) and head-push
(`replace` plus storing the previous head as the new block's link), which
correspond exactly to `List` head operations.
`hdr` is the debug size-header word of each block (the spec's companion
verification map).  `nextBase` models the address of the next `new Pool_t`.
`allocatedPools` (every pool ever created, in creation order) and
`freedPools` (every pool passed to `delete`) are ghost fields recording
allocation history; no operation reads them. -/
structure DataAllocator where
  memPool : List Nat
  freePtr : Nat
  endFree : Nat
  freeMem : Nat → List Nat
  hdr : Nat → Nat
  nextBase : Nat
  allocatedPools : List Nat
  freedPools : List Nat

/-- Constructor (DataAllocator.cpp lines 46-55): one pool, cursor at its
base, empty free lists.  The first pool is placed at address 1 (addresses
are abstract; 0 plays the role of no address). -/
def initState (c : Config) : DataAllocator :=
  { memPool := [1]
    freePtr := 1
    endFree := 1 + c.chunkSize
    freeMem := fun _ => []
    hdr := fun _ => 0
    nextBase := 1 + c.chunkSize + 2
    allocatedPools := [1]
    freedPools := [] }

/-- Method `DataAllocator::hasInPools` (DataAllocator.cpp lines 226-250): the
address lies in the current pool below the cursor or inside a full pool,
and is not on the free list of its size class. -/
def hasInPools (c : Config) (st : DataAllocator) (data : Nat) (intSize : Nat) : Bool :=
  let inPool :=
    match st.memPool with
    | [] => false
    | p :: rest =>
        (decide (p ≤ data) && decide (data < st.freePtr))
        || rest.any (fun q => decide (q ≤ data) && decide (data < q + c.chunkSize))
  inPool && !(st.freeMem intSize).contains data

/-- Method `DataAllocator::allocate` (DataAllocator.cpp lines 76-125).

Outer `none` models a failed debug assertion (the `ASSERT` on the size
bound); the inner `Option Nat` is the returned pointer (`none` = null).
The three sources are tried in order: free list of the internal size
class, bump cursor, new pool (pushing any nonzero leftover tail onto the
free list under class `arch_size memLeft` first). -/
def allocate (c : Config) (st : DataAllocator) (intSize : Nat) :
    Option (Option Nat × DataAllocator) :=
  if c.debug ∧ c.chunkSize < intSize then none
  else if intSize = 0 then some (none, st)
  else
    if st.freeMem (arch_size c intSize + DEBUG_OFFSET c) ≠ [] then
        some (some ((st.freeMem (arch_size c intSize + DEBUG_OFFSET c)).headI + DEBUG_OFFSET c),
          { st with
              freeMem := upd st.freeMem (arch_size c intSize + DEBUG_OFFSET c)
                (st.freeMem (arch_size c intSize + DEBUG_OFFSET c)).tail
              hdr := if c.debug then
                       upd st.hdr (st.freeMem (arch_size c intSize + DEBUG_OFFSET c)).headI
                         (arch_size c intSize + DEBUG_OFFSET c)
                     else st.hdr })
    else
        if st.freePtr + (arch_size c intSize + DEBUG_OFFSET c) ≤ st.endFree then
          some (some (st.freePtr + DEBUG_OFFSET c),
            { st with
                freePtr := st.freePtr + (arch_size c intSize + DEBUG_OFFSET c)
                hdr := if c.debug then
                         upd st.hdr st.freePtr (arch_size c intSize + DEBUG_OFFSET c)
                       else st.hdr })
        else
          some (some (st.nextBase + DEBUG_OFFSET c),
            { memPool := st.nextBase :: st.memPool
              freePtr := st.nextBase + (arch_size c intSize + DEBUG_OFFSET c)
              endFree := st.nextBase + c.chunkSize
              freeMem :=
                if st.endFree - st.freePtr ≠ 0 then
                  upd st.freeMem (arch_size c (st.endFree - st.freePtr))
                    (st.freePtr :: st.freeMem (arch_size c (st.endFree - st.freePtr)))
                else st.freeMem
              hdr := if c.debug then
                       upd st.hdr st.nextBase (arch_size c intSize + DEBUG_OFFSET c)
                     else st.hdr
              nextBase := st.nextBase + c.chunkSize + 2
              allocatedPools := st.allocatedPools ++ [st.nextBase]
              freedPools := st.freedPools })

/-- Method `DataAllocator::deallocate` (DataAllocator.cpp lines 129-151).

`none` models a failed debug `assert` (size-header mismatch, block not in
the pools or already free, or the trailing post-condition assert).  Tail
blocks (ending exactly at the cursor) retreat the cursor; every other
nonzero-size block is pushed onto its size class's free list. -/
def deallocate (c : Config) (st : DataAllocator) (ptr : Nat) (intSize : Nat) :
    Option DataAllocator :=
  if intSize = 0 then some st
  else if c.debug ∧
      ¬ st.hdr (ptr - DEBUG_OFFSET c) = arch_size c intSize + DEBUG_OFFSET c then none
  else if c.debug ∧
      ¬ hasInPools c st (ptr - DEBUG_OFFSET c) (arch_size c intSize + DEBUG_OFFSET c) then
    none
  else if (ptr - DEBUG_OFFSET c) + (arch_size c intSize + DEBUG_OFFSET c) = st.freePtr then
    if c.debug ∧ hasInPools c { st with freePtr := ptr - DEBUG_OFFSET c }
        (ptr - DEBUG_OFFSET c) (arch_size c intSize + DEBUG_OFFSET c) then none
    else some { st with freePtr := ptr - DEBUG_OFFSET c }
  else
    if c.debug ∧ hasInPools c
        { st with freeMem :=
            (upd st.freeMem (arch_size c intSize + DEBUG_OFFSET c)
              ((ptr - DEBUG_OFFSET c) :: st.freeMem (arch_size c intSize + DEBUG_OFFSET c))) }
        (ptr - DEBUG_OFFSET c) (arch_size c intSize + DEBUG_OFFSET c) then none
    else some { st with freeMem :=
        (upd st.freeMem (arch_size c intSize + DEBUG_OFFSET c)
          ((ptr - DEBUG_OFFSET c) :: st.freeMem (arch_size c intSize + DEBUG_OFFSET c))) }

/-- Method `DataAllocator::reset` (DataAllocator.cpp lines 155-171), translated
exactly as written: `memPool->next` is set to null first, the cursor is
reset into `memPool`, and only then does the deletion loop start from
`memPool->next` — which is already null, so the loop body never runs and
nothing is deleted.  The chain keeps only its head (the most recently
allocated pool); the detached pools go to neither the chain nor
`freedPools`.  All free lists are cleared. -/
def reset (c : Config) (st : DataAllocator) : DataAllocator :=
  match st.memPool with
  | [] => st
  | p :: _ =>
      { st with
          memPool := [p]
          freePtr := p
          endFree := p + c.chunkSize
          freeMem := fun _ => [] }

/-- Free-list byte total in words, as `printStats` computes it
(DataAllocator.cpp lines 196-205): each block in class `i` contributes
its class index `i`.  The summation range covers every class any
operation can touch (internal sizes are at most `chunkSize + 1`). -/
def memInFreeList (c : Config) (st : DataAllocator) : Int :=
  ∑ i ∈ Finset.range (c.chunkSize + 2), (i : Int) * ((st.freeMem i).length : Int)

/-- The consumed-memory quantity of `printStats`
(DataAllocator.cpp lines 209-215), in words: total pool words minus
free-list words minus the current free tail. -/
def consumed (c : Config) (st : DataAllocator) : Int :=
  (st.memPool.length : Int) * (c.chunkSize : Int) - memInFreeList c st
    - ((st.endFree : Int) - (st.freePtr : Int))

/-- Function `base_allocate` (DataAllocator.cpp lines 256-261): wrapper forwarding
to `DataAllocator::allocate`. -/
def base_allocate (c : Config) (st : DataAllocator) (size : Nat) :
    Option (Option Nat × DataAllocator) :=
  allocate c st size

/-- Function `base_deallocate` (DataAllocator.cpp lines 265-270): wrapper
forwarding to `DataAllocator::deallocate`. -/
def base_deallocate (c : Config) (st : DataAllocator) (mem : Nat) (intSize : Nat) :
    Option DataAllocator :=
  deallocate c st mem intSize

/-- State of the pass-through adapter: a fresh-address counter and the
list of live buffers (address, size). -/
structure NewState where
  next : Nat
  live : List (Nat × Nat)
deriving DecidableEq, Repr

/-- Function `base_new` (DataAllocator.cpp line 274) wraps `new int32_t[size]`.
Modelled from the spec: the pass-through adapter's allocate returns a
fresh buffer of `size` items; array `new` never returns null (even for
size 0 it returns a valid non-null pointer), so the result is always
present. -/
def base_new (st : NewState) (size : Nat) : Option Nat × NewState :=
  (some st.next, { next := st.next + size + 1, live := (st.next, size) :: st.live })

/-- Function `base_delete` (DataAllocator.cpp line 278) wraps `delete[]`.
Modelled from the spec: the pass-through adapter's deallocate releases
the buffer the matching allocate returned. -/
def base_delete (st : NewState) (mem : Nat) : NewState :=
  { st with live := st.live.filter (fun p => p.1 ≠ mem) }

/-- Scenario helper: the state after an `allocate` call (keeping the old
state if the call aborted, which never happens in the scenarios below). -/
def allocSt (c : Config) (st : DataAllocator) (n : Nat) : DataAllocator :=
  ((allocate c st n).getD (none, st)).2

/-- Scenario helper: the pointer an `allocate` call returned. -/
def allocPtr (c : Config) (st : DataAllocator) (n : Nat) : Option Nat :=
  ((allocate c st n).getD (none, st)).1

/-- Scenario helper: the state after a `deallocate` call. -/
def deallocSt (c : Config) (st : DataAllocator) (ptr : Nat) (n : Nat) : DataAllocator :=
  (deallocate c st ptr n).getD st

/-! ### Helper lemmas about the table update and the free-list byte sum -/

theorem upd_self {α : Type} (f : Nat → α) (k : Nat) (v : α) : upd f k v k = v := by
  simp [upd]

theorem upd_ne {α : Type} (f : Nat → α) (k : Nat) (v : α) {i : Nat} (h : i ≠ k) :
    upd f k v i = f i := by
  simp [upd, h]

theorem sum_upd (B k : Nat) (f : Nat → List Nat) (L : List Nat) (hk : k < B) :
    (∑ i ∈ Finset.range B, (i : Int) * ((upd f k L i).length : Int))
      = (∑ i ∈ Finset.range B, (i : Int) * ((f i).length : Int))
        + (k : Int) * (L.length : Int) - (k : Int) * ((f k).length : Int) := by
  have hmem : k ∈ Finset.range B := Finset.mem_range.mpr hk
  have h1 : (∑ i ∈ Finset.range B, (i : Int) * ((upd f k L i).length : Int))
      = ∑ i ∈ Finset.range B,
          Function.update (fun i : Nat => (i : Int) * ((f i).length : Int)) k
            ((k : Int) * (L.length : Int)) i := by
    refine Finset.sum_congr rfl fun i _ => ?_
    by_cases hi : i = k
    · subst hi; simp [upd, Function.update_same]
    · simp [upd, hi, Function.update_apply]
  rw [h1, Finset.sum_update_of_mem hmem,
    Finset.sum_eq_sum_diff_singleton_add hmem
      (fun i : Nat => (i : Int) * ((f i).length : Int))]
  ring

/-! ### Path equations for `allocate` and `deallocate` -/

/-- First source (free list of the internal size class): if that list is
nonempty, `allocate` pops its head and touches nothing else. -/
theorem allocate_eq_pop (c : Config) (st : DataAllocator) (n d : Nat) (rest : List Nat)
    (h0 : ¬ n = 0) (hb : ¬ (c.debug = true ∧ c.chunkSize < n))
    (hfl : st.freeMem (arch_size c n + DEBUG_OFFSET c) = d :: rest) :
    allocate c st n = some (some (d + DEBUG_OFFSET c),
      { st with
          freeMem := upd st.freeMem (arch_size c n + DEBUG_OFFSET c) rest
          hdr := if c.debug then upd st.hdr d (arch_size c n + DEBUG_OFFSET c)
                 else st.hdr }) := by
  unfold allocate
  rw [if_neg hb, if_neg h0, hfl]
  simp

/-- Second source (bump cursor): free list empty and the advanced cursor
stays within the current chunk. -/
theorem allocate_eq_bump (c : Config) (st : DataAllocator) (n : Nat)
    (h0 : ¬ n = 0) (hb : ¬ (c.debug = true ∧ c.chunkSize < n))
    (hfl : st.freeMem (arch_size c n + DEBUG_OFFSET c) = [])
    (hfit : st.freePtr + (arch_size c n + DEBUG_OFFSET c) ≤ st.endFree) :
    allocate c st n = some (some (st.freePtr + DEBUG_OFFSET c),
      { st with
          freePtr := st.freePtr + (arch_size c n + DEBUG_OFFSET c)
          hdr := if c.debug then
                   upd st.hdr st.freePtr (arch_size c n + DEBUG_OFFSET c)
                 else st.hdr }) := by
  unfold allocate
  rw [if_neg hb, if_neg h0, if_neg (by simp [hfl]), if_pos hfit]

/-- Third source (chunk extension): free list empty and the bump would
overflow; any nonzero leftover tail is pushed onto class
`arch_size (endFree - freePtr)` and a fresh chunk is prepended. -/
theorem allocate_eq_pool (c : Config) (st : DataAllocator) (n : Nat)
    (h0 : ¬ n = 0) (hb : ¬ (c.debug = true ∧ c.chunkSize < n))
    (hfl : st.freeMem (arch_size c n + DEBUG_OFFSET c) = [])
    (hnofit : ¬ st.freePtr + (arch_size c n + DEBUG_OFFSET c) ≤ st.endFree) :
    allocate c st n = some (some (st.nextBase + DEBUG_OFFSET c),
      { memPool := st.nextBase :: st.memPool
        freePtr := st.nextBase + (arch_size c n + DEBUG_OFFSET c)
        endFree := st.nextBase + c.chunkSize
        freeMem :=
          if st.endFree - st.freePtr ≠ 0 then
            upd st.freeMem (arch_size c (st.endFree - st.freePtr))
              (st.freePtr :: st.freeMem (arch_size c (st.endFree - st.freePtr)))
          else st.freeMem
        hdr := if c.debug then
                 upd st.hdr st.nextBase (arch_size c n + DEBUG_OFFSET c)
               else st.hdr
        nextBase := st.nextBase + c.chunkSize + 2
        allocatedPools := st.allocatedPools ++ [st.nextBase]
        freedPools := st.freedPools }) := by
  unfold allocate
  rw [if_neg hb, if_neg h0, if_neg (by simp [hfl]), if_neg hnofit]

/-- A successful `allocate` that hands out a pointer had a nonzero size
request. -/
theorem allocate_pos_of_ptr (c : Config) (st : DataAllocator) (n ptr : Nat)
    (st₁ : DataAllocator) (ha : allocate c st n = some (some ptr, st₁)) : ¬ n = 0 := by
  intro h
  subst h
  unfold allocate at ha
  rw [if_neg (by simp), if_pos rfl] at ha
  simp at ha

/-- For every valid nonzero request, `allocate` hands out a (non-null)
pointer. -/
theorem allocate_pos_some (c : Config) (st : DataAllocator) (n : Nat)
    (h0 : 0 < n) (hn : n ≤ c.chunkSize) :
    ∃ p st₁, allocate c st n = some (some p, st₁) := by
  have h0' : ¬ n = 0 := Nat.pos_iff_ne_zero.mp h0
  have hb : ¬ (c.debug = true ∧ c.chunkSize < n) := by
    rintro ⟨-, hlt⟩; omega
  rcases hfl : st.freeMem (arch_size c n + DEBUG_OFFSET c) with - | ⟨d, rest⟩
  · by_cases hfit : st.freePtr + (arch_size c n + DEBUG_OFFSET c) ≤ st.endFree
    · exact ⟨_, _, allocate_eq_bump c st n h0' hb hfl hfit⟩
    · exact ⟨_, _, allocate_eq_pool c st n h0' hb hfl hfit⟩
  · exact ⟨_, _, allocate_eq_pop c st n d rest h0' hb hfl⟩

/-- In a debug configuration, every successful `allocate` records the
internal size (the once-halved request plus the header word) in the
header word of the block it returns. -/
theorem allocate_hdr (c : Config) (st : DataAllocator) (n ptr : Nat)
    (st₁ : DataAllocator) (hdbg : c.debug = true)
    (ha : allocate c st n = some (some ptr, st₁)) :
    st₁.hdr (ptr - DEBUG_OFFSET c) = arch_size c n + DEBUG_OFFSET c := by
  have h0 : ¬ n = 0 := allocate_pos_of_ptr c st n ptr st₁ ha
  have hb : ¬ (c.debug = true ∧ c.chunkSize < n) := by
    rintro ⟨-, hlt⟩
    unfold allocate at ha
    rw [if_pos ⟨hdbg, hlt⟩] at ha
    exact Option.noConfusion ha
  rcases hfl : st.freeMem (arch_size c n + DEBUG_OFFSET c) with - | ⟨d, rest⟩
  · by_cases hfit : st.freePtr + (arch_size c n + DEBUG_OFFSET c) ≤ st.endFree
    · rw [allocate_eq_bump c st n h0 hb hfl hfit] at ha
      simp only [Option.some.injEq, Prod.mk.injEq] at ha
      obtain ⟨hp, hs⟩ := ha
      rw [← hs, ← hp]
      simp [hdbg, Nat.add_sub_cancel, upd_self]
    · rw [allocate_eq_pool c st n h0 hb hfl hfit] at ha
      simp only [Option.some.injEq, Prod.mk.injEq] at ha
      obtain ⟨hp, hs⟩ := ha
      rw [← hs, ← hp]
      simp [hdbg, Nat.add_sub_cancel, upd_self]
  · rw [allocate_eq_pop c st n d rest h0 hb hfl] at ha
    simp only [Option.some.injEq, Prod.mk.injEq] at ha
    obtain ⟨hp, hs⟩ := ha
    rw [← hs, ← hp]
    simp [hdbg, Nat.add_sub_cancel, upd_self]

/-- In a debug configuration, `deallocate` with a nonzero size whose
internal size disagrees with the recorded header aborts. -/
theorem deallocate_hdr_abort (c : Config) (st : DataAllocator) (ptr n : Nat)
    (hdbg : c.debug = true) (h0 : ¬ n = 0)
    (hh : ¬ st.hdr (ptr - DEBUG_OFFSET c) = arch_size c n + DEBUG_OFFSET c) :
    deallocate c st ptr n = none := by
  unfold deallocate
  rw [if_neg h0, if_pos ⟨hdbg, hh⟩]

/-- Case analysis of a successful `deallocate` with nonzero size: either
the block ended exactly at the cursor and the cursor retreated to its
start, or the block was pushed onto the head of its class's free list. -/
theorem deallocate_some_cases (c : Config) (st : DataAllocator) (ptr n : Nat)
    (st' : DataAllocator) (h0 : ¬ n = 0)
    (hd : deallocate c st ptr n = some st') :
    ((ptr - DEBUG_OFFSET c) + (arch_size c n + DEBUG_OFFSET c) = st.freePtr ∧
      st' = { st with freePtr := ptr - DEBUG_OFFSET c }) ∨
    (¬ (ptr - DEBUG_OFFSET c) + (arch_size c n + DEBUG_OFFSET c) = st.freePtr ∧
      st' = { st with freeMem :=
        (upd st.freeMem (arch_size c n + DEBUG_OFFSET c)
          ((ptr - DEBUG_OFFSET c) :: st.freeMem (arch_size c n + DEBUG_OFFSET c))) }) := by
  unfold deallocate at hd
  rw [if_neg h0] at hd
  by_cases h1 : c.debug = true ∧
      ¬ st.hdr (ptr - DEBUG_OFFSET c) = arch_size c n + DEBUG_OFFSET c
  · rw [if_pos h1] at hd; exact Option.noConfusion hd
  rw [if_neg h1] at hd
  by_cases h2 : c.debug = true ∧
      ¬ hasInPools c st (ptr - DEBUG_OFFSET c) (arch_size c n + DEBUG_OFFSET c) = true
  · rw [if_pos h2] at hd; exact Option.noConfusion hd
  rw [if_neg h2] at hd
  by_cases h3 : (ptr - DEBUG_OFFSET c) + (arch_size c n + DEBUG_OFFSET c) = st.freePtr
  · rw [if_pos h3] at hd
    left
    refine ⟨h3, ?_⟩
    by_cases h4 : c.debug = true ∧ hasInPools c { st with freePtr := ptr - DEBUG_OFFSET c }
        (ptr - DEBUG_OFFSET c) (arch_size c n + DEBUG_OFFSET c) = true
    · rw [if_pos h4] at hd; exact Option.noConfusion hd
    · rw [if_neg h4] at hd; exact (Option.some.inj hd).symm
  · rw [if_neg h3] at hd
    right
    refine ⟨h3, ?_⟩
    by_cases h4 : c.debug = true ∧ hasInPools c
        { st with freeMem :=
            (upd st.freeMem (arch_size c n + DEBUG_OFFSET c)
              ((ptr - DEBUG_OFFSET c) :: st.freeMem (arch_size c n + DEBUG_OFFSET c))) }
        (ptr - DEBUG_OFFSET c) (arch_size c n + DEBUG_OFFSET c) = true
    · rw [if_pos h4] at hd; exact Option.noConfusion hd
    · rw [if_neg h4] at hd; exact (Option.some.inj hd).symm

/-! ### Claim theorems -/

/-- Claim C9: `allocate 0` returns the absent value and leaves the state
untouched, and `deallocate ptr 0` leaves the state untouched, in every
build configuration (debug or release, 32- or 64-bit): neither trips any
assertion. -/
theorem C9_size_zero_defined_noop (c : Config) (st : DataAllocator) (ptr : Nat) :
    allocate c st 0 = some (none, st) ∧ deallocate c st ptr 0 = some st := by
  constructor
  · unfold allocate
    rw [if_neg (by simp), if_pos rfl]
  · unfold deallocate
    rw [if_pos rfl]

/-- Claim C10: for `0 < n ≤ CHUNK_SIZE` (chunk allocation always succeeds
in the model), `allocate n` returns a non-null pointer; the absent (null)
result occurs exactly for `n = 0`. -/
theorem C10_allocate_null_iff_zero (c : Config) (st : DataAllocator) (n : Nat)
    (hn : n ≤ c.chunkSize) :
    ((allocate c st n).map Prod.fst = some none ↔ n = 0) ∧
    (0 < n → ∃ p st₁, allocate c st n = some (some p, st₁)) := by
  have hzero : allocate c st 0 = some (none, st) := by
    unfold allocate
    rw [if_neg (by simp), if_pos rfl]
  refine ⟨⟨?_, ?_⟩, fun h0 => allocate_pos_some c st n h0 hn⟩
  · intro h
    by_contra h0
    obtain ⟨p, st₁, hp⟩ := allocate_pos_some c st n (Nat.pos_of_ne_zero h0) hn
    rw [hp] at h
    simp at h
  · intro h
    subst h
    rw [hzero]
    rfl

/-- Claim C10 witness: at size 0 the result is the absent value. -/
theorem C10_allocate_null_iff_zero_witness :
    (allocate ⟨true, true, 8⟩ (initState ⟨true, true, 8⟩) 0).map Prod.fst = some none :=
  (C10_allocate_null_iff_zero ⟨true, true, 8⟩ (initState ⟨true, true, 8⟩) 0
    (by decide)).1.mpr rfl

/-- Claim C1 (code-bug exhibit): 32-bit release build, `CHUNK_SIZE = 8`
words.  `allocate 8` fills the base chunk (base address 1); a second
`allocate 8` forces a second chunk (base address 11).  `reset()` then
keeps the newest chunk 11 — not the first chunk ever allocated, which is
chunk 1 — and frees nothing at all (the `.cpp` nulls `memPool->next`
before the deletion loop reads it, so the loop never runs): chunk 1 is
neither in the chain nor in the freed list afterwards.  The free lists
are cleared and the cursor does point at the retained chunk's start, but
the retained chunk is the newest, and no chunk is freed. -/
theorem C1_reset_keeps_newest_and_frees_nothing :
    let c : Config := ⟨false, false, 8⟩
    let st := allocSt c (allocSt c (initState c) 8) 8
    st.memPool = [11, 1] ∧ st.allocatedPools = [1, 11] ∧
    (reset c st).memPool = [11] ∧ (reset c st).freedPools = [] ∧
    (reset c st).allocatedPools = [1, 11] ∧ (reset c st).freePtr = 11 ∧
    consumed c (reset c st) = 0 := by
  decide

/-- Claim C6: for valid nonzero `n`, `allocate` tries its three sources in
order, where the free-list class and the cursor advance use the internal
word size `arch_size n + DEBUG_OFFSET` (equal to `n` in a release 32-bit
build): (1) if the class's list is nonempty its head is popped, with the
chain and cursor untouched; (2) otherwise, if the advanced cursor fits
the current chunk, the block is bump-allocated at the cursor; (3) only
otherwise is a new chunk allocated, prepended to the chain, and the
request satisfied at the new chunk's base. -/
theorem C6_allocate_source_order (c : Config) (st : DataAllocator) (n : Nat)
    (h0 : 0 < n) (hn : n ≤ c.chunkSize) :
    (∀ d rest, st.freeMem (arch_size c n + DEBUG_OFFSET c) = d :: rest →
      allocPtr c st n = some (d + DEBUG_OFFSET c) ∧
      (allocSt c st n).freeMem (arch_size c n + DEBUG_OFFSET c) = rest ∧
      (allocSt c st n).memPool = st.memPool ∧
      (allocSt c st n).freePtr = st.freePtr) ∧
    (st.freeMem (arch_size c n + DEBUG_OFFSET c) = [] →
      st.freePtr + (arch_size c n + DEBUG_OFFSET c) ≤ st.endFree →
      allocPtr c st n = some (st.freePtr + DEBUG_OFFSET c) ∧
      (allocSt c st n).freePtr = st.freePtr + (arch_size c n + DEBUG_OFFSET c) ∧
      (allocSt c st n).memPool = st.memPool) ∧
    (st.freeMem (arch_size c n + DEBUG_OFFSET c) = [] →
      ¬ st.freePtr + (arch_size c n + DEBUG_OFFSET c) ≤ st.endFree →
      allocPtr c st n = some (st.nextBase + DEBUG_OFFSET c) ∧
      (allocSt c st n).memPool = st.nextBase :: st.memPool ∧
      (allocSt c st n).freePtr = st.nextBase + (arch_size c n + DEBUG_OFFSET c)) := by
  have h0' : ¬ n = 0 := by omega
  have hb : ¬ (c.debug = true ∧ c.chunkSize < n) := by
    rintro ⟨-, hlt⟩; omega
  refine ⟨?_, ?_, ?_⟩
  · intro d rest hfl
    have h := allocate_eq_pop c st n d rest h0' hb hfl
    refine ⟨by simp [allocPtr, h], ?_, by simp [allocSt, h], by simp [allocSt, h]⟩
    simp [allocSt, h, upd_self]
  · intro hfl hfit
    have h := allocate_eq_bump c st n h0' hb hfl hfit
    exact ⟨by simp [allocPtr, h], by simp [allocSt, h], by simp [allocSt, h]⟩
  · intro hfl hnofit
    have h := allocate_eq_pool c st n h0' hb hfl hnofit
    exact ⟨by simp [allocPtr, h], by simp [allocSt, h], by simp [allocSt, h]⟩

/-- Claim C6 witness: with one block of class 2 on the free list, an
`allocate` occupying 2 words pops it rather than bumping the cursor. -/
theorem C6_allocate_source_order_witness :
    allocPtr ⟨false, false, 4⟩
      ⟨[1], 3, 5, upd (fun _ => []) 2 [7], fun _ => 0, 7, [1], []⟩ 2 = some 7 ∧
    (allocSt ⟨false, false, 4⟩
      ⟨[1], 3, 5, upd (fun _ => []) 2 [7], fun _ => 0, 7, [1], []⟩ 2).freeMem 2 = [] := by
  have h := (C6_allocate_source_order ⟨false, false, 4⟩
    ⟨[1], 3, 5, upd (fun _ => []) 2 [7], fun _ => 0, 7, [1], []⟩ 2
    (by decide) (by decide)).1 7 [] rfl
  exact ⟨h.1, h.2.1⟩

/-- Claim C7: a successful `deallocate ptr n` with nonzero `n` either
retreats the cursor to the block's start — exactly when the block ends at
the cursor — without touching any free list, or pushes the block onto the
head of free-list class `arch_size n + DEBUG_OFFSET` (the internal word
size, equal to `n` in a release 32-bit build), leaving the cursor and all
other classes untouched. -/
theorem C7_deallocate_tail_shrink (c : Config) (st : DataAllocator) (ptr n : Nat)
    (st' : DataAllocator) (h0 : 0 < n)
    (hd : deallocate c st ptr n = some st') :
    ((ptr - DEBUG_OFFSET c) + (arch_size c n + DEBUG_OFFSET c) = st.freePtr →
      st'.freePtr = ptr - DEBUG_OFFSET c ∧ st'.freeMem = st.freeMem) ∧
    (¬ (ptr - DEBUG_OFFSET c) + (arch_size c n + DEBUG_OFFSET c) = st.freePtr →
      st'.freePtr = st.freePtr ∧
      st'.freeMem (arch_size c n + DEBUG_OFFSET c)
        = (ptr - DEBUG_OFFSET c) :: st.freeMem (arch_size c n + DEBUG_OFFSET c) ∧
      ∀ j, ¬ j = arch_size c n + DEBUG_OFFSET c → st'.freeMem j = st.freeMem j) := by
  rcases deallocate_some_cases c st ptr n st' (by omega) hd with ⟨heq, hst⟩ | ⟨hne, hst⟩
  · subst hst
    exact ⟨fun _ => ⟨rfl, rfl⟩, fun h => absurd heq h⟩
  · subst hst
    refine ⟨fun h => absurd h hne, fun _ => ⟨rfl, upd_self _ _ _, fun j hj => upd_ne _ _ _ hj⟩⟩

/-- Claim C7 witness: deallocating the block that ends at the cursor
retreats the cursor and leaves the free lists untouched. -/
theorem C7_deallocate_tail_shrink_witness :
    (deallocSt ⟨false, false, 8⟩ ⟨[1], 5, 9, fun _ => [], fun _ => 0, 11, [1], []⟩ 3 2).freePtr
      = 3 ∧
    (deallocSt ⟨false, false, 8⟩ ⟨[1], 5, 9, fun _ => [], fun _ => 0, 11, [1], []⟩ 3 2).freeMem
      = (⟨[1], 5, 9, fun _ => [], fun _ => 0, 11, [1], []⟩ : DataAllocator).freeMem :=
  (C7_deallocate_tail_shrink ⟨false, false, 8⟩
    ⟨[1], 5, 9, fun _ => [], fun _ => 0, 11, [1], []⟩ 3 2
    (deallocSt ⟨false, false, 8⟩ ⟨[1], 5, 9, fun _ => [], fun _ => 0, 11, [1], []⟩ 3 2)
    (by decide) rfl).1 (by decide)

/-- Claim C2 counterexample (64-bit release build, `CHUNK_SIZE = 8`): the
current chunk is [1, 9) with the cursor at 7, so the leftover tail is
m = 2 words.  `allocate 5` (3 internal words) overflows: the claim says
the tail is filed under size class 2 (its own exact word count) and that
a later allocate occupying 2 words (external size 4) is satisfied from
it.  The code instead files it under class `arch_size 2 = 1`, class 2
stays empty, and the later `allocate 4` is served at the new chunk's
base 14, not from the leftover block 7, which remains unused in
class 1. -/
theorem C2_counterexample_64bit :
    let c : Config := ⟨true, false, 8⟩
    let st : DataAllocator := ⟨[1], 7, 9, fun _ => [], fun _ => 0, 11, [1], []⟩
    allocPtr c st 5 = some 11 ∧
    (allocSt c st 5).freeMem 2 = [] ∧
    (allocSt c st 5).freeMem 1 = [7] ∧
    allocPtr c (allocSt c st 5) 4 = some 14 ∧
    (allocSt c (allocSt c st 5) 4).freeMem 1 = [7] := by
  decide

/-- Claim C2 (amended): when `allocate n` overflows the current chunk and
a nonzero leftover tail of `m = endFree - freePtr` words remains, the
code pushes the tail block under class `arch_size m`; on a 32-bit
configuration this is exactly class `m` — the tail's own word count —
the push happens in the same step that prepends the new chunk, and a
later allocate whose request occupies exactly `m` internal words is
satisfied from that leftover block (popping it from the free list)
rather than from the new chunk.  (On 64-bit builds the class is
`(m + 1) / 2` instead and same-word-count reuse misses the block, per
the counterexample.) -/
theorem C2_tail_pushed_exact_class_32bit (c : Config) (st : DataAllocator) (n m : Nat)
    (h32 : c.is64 = false) (h0 : 0 < n) (hn : n ≤ c.chunkSize)
    (hfl : st.freeMem (arch_size c n + DEBUG_OFFSET c) = [])
    (hov : ¬ st.freePtr + (arch_size c n + DEBUG_OFFSET c) ≤ st.endFree)
    (htl : st.freePtr < st.endFree)
    (hm0 : 0 < m) (hmc : m ≤ c.chunkSize)
    (hm : arch_size c m + DEBUG_OFFSET c = st.endFree - st.freePtr) :
    allocPtr c st n = some (st.nextBase + DEBUG_OFFSET c) ∧
    (allocSt c st n).memPool = st.nextBase :: st.memPool ∧
    (allocSt c st n).freeMem (st.endFree - st.freePtr)
      = st.freePtr :: st.freeMem (st.endFree - st.freePtr) ∧
    allocPtr c (allocSt c st n) m = some (st.freePtr + DEBUG_OFFSET c) := by
  have h0' : ¬ n = 0 := by omega
  have hb : ¬ (c.debug = true ∧ c.chunkSize < n) := by
    rintro ⟨-, hlt⟩; omega
  have hml : ¬ st.endFree - st.freePtr = 0 := by omega
  have harch : ∀ x, arch_size c x = x := by
    intro x; simp [arch_size, h32]
  have h := allocate_eq_pool c st n h0' hb hfl hov
  have hst : allocSt c st n =
      { memPool := st.nextBase :: st.memPool
        freePtr := st.nextBase + (arch_size c n + DEBUG_OFFSET c)
        endFree := st.nextBase + c.chunkSize
        freeMem :=
          if st.endFree - st.freePtr ≠ 0 then
            upd st.freeMem (arch_size c (st.endFree - st.freePtr))
              (st.freePtr :: st.freeMem (arch_size c (st.endFree - st.freePtr)))
          else st.freeMem
        hdr := if c.debug then
                 upd st.hdr st.nextBase (arch_size c n + DEBUG_OFFSET c)
               else st.hdr
        nextBase := st.nextBase + c.chunkSize + 2
        allocatedPools := st.allocatedPools ++ [st.nextBase]
        freedPools := st.freedPools } := by
    simp [allocSt, h]
  have hfm : (allocSt c st n).freeMem (st.endFree - st.freePtr)
      = st.freePtr :: st.freeMem (st.endFree - st.freePtr) := by
    rw [hst]
    simp only [if_pos hml, harch]
    exact upd_self _ _ _
  refine ⟨by simp [allocPtr, h], by rw [hst], hfm, ?_⟩
  have hm0' : ¬ m = 0 := by omega
  have hbm : ¬ (c.debug = true ∧ c.chunkSize < m) := by
    rintro ⟨-, hlt⟩; omega
  have hflm : (allocSt c st n).freeMem (arch_size c m + DEBUG_OFFSET c)
      = st.freePtr :: st.freeMem (st.endFree - st.freePtr) := by
    rw [hm]; exact hfm
  have h2 := allocate_eq_pop c (allocSt c st n) m st.freePtr
    (st.freeMem (st.endFree - st.freePtr)) hm0' hbm hflm
  simp [allocPtr, h2]

/-- Claim C2 witness: 32-bit release build, `CHUNK_SIZE = 8`, chunk
[1, 9) with cursor at 6 (tail m = 3 words): `allocate 5` overflows, the
tail goes to class 3, and a later `allocate 3` pops it. -/
theorem C2_tail_pushed_exact_class_32bit_witness :
    allocPtr ⟨false, false, 8⟩ ⟨[1], 6, 9, fun _ => [], fun _ => 0, 11, [1], []⟩ 5
      = some 11 ∧
    (allocSt ⟨false, false, 8⟩ ⟨[1], 6, 9, fun _ => [], fun _ => 0, 11, [1], []⟩ 5).memPool
      = [11, 1] ∧
    (allocSt ⟨false, false, 8⟩ ⟨[1], 6, 9, fun _ => [], fun _ => 0, 11, [1], []⟩ 5).freeMem 3
      = [6] ∧
    allocPtr ⟨false, false, 8⟩
      (allocSt ⟨false, false, 8⟩ ⟨[1], 6, 9, fun _ => [], fun _ => 0, 11, [1], []⟩ 5) 3
      = some 6 :=
  C2_tail_pushed_exact_class_32bit ⟨false, false, 8⟩
    ⟨[1], 6, 9, fun _ => [], fun _ => 0, 11, [1], []⟩ 5 3
    rfl (by decide) (by decide) rfl (by decide) (by decide) (by decide) (by decide) rfl

/-- Claim C3 counterexample: two debug-build runs where `deallocate` with
a wrong size does not abort.  64-bit, `CHUNK_SIZE = 8`: `allocate 4`
returns block 2 recording internal size `arch_size 4 + 1 = 3`;
`deallocate 2 3` with wrong size 3 ≠ 4 also maps to internal size 3, so
the recorded-size assertion passes and the call succeeds.  32-bit:
after `allocate 3`, `deallocate 2 0` with wrong size 0 ≠ 3 is the
defined size-0 no-op and asserts nothing. -/
theorem C3_counterexample_undetected_wrong_size :
    let c64 : Config := ⟨true, true, 8⟩
    let c32 : Config := ⟨false, true, 8⟩
    allocPtr c64 (initState c64) 4 = some 2 ∧
    (deallocate c64 (allocSt c64 (initState c64) 4) 2 3).isSome = true ∧
    ¬ (3 : Nat) = 4 ∧
    allocPtr c32 (initState c32) 3 = some 2 ∧
    (deallocate c32 (allocSt c32 (initState c32) 3) 2 0).isSome = true ∧
    ¬ (0 : Nat) = 3 := by
  decide

/-- Claim C3 (amended): under debug instrumentation, for every block
returned by `allocate n`, `deallocate ptr wrong` aborts via the
recorded-size assertion whenever `wrong` is nonzero and its once-halved
word count differs from that of `n` (`arch_size wrong ≠ arch_size n`).
On a 32-bit build that is every nonzero `wrong ≠ n`; `wrong = 0` is the
defined size-0 no-op, and on 64-bit builds the two external sizes
sharing one word count (2k-1 and 2k) are not distinguished, per the
counterexample. -/
theorem C3_wrong_size_aborts (c : Config) (st : DataAllocator) (n wrong ptr : Nat)
    (st₁ : DataAllocator) (hdbg : c.debug = true)
    (ha : allocate c st n = some (some ptr, st₁))
    (hw0 : ¬ wrong = 0)
    (hws : ¬ arch_size c wrong = arch_size c n) :
    deallocate c st₁ ptr wrong = none := by
  have hh := allocate_hdr c st n ptr st₁ hdbg ha
  apply deallocate_hdr_abort c st₁ ptr wrong hdbg hw0
  rw [hh]
  exact fun h => hws (by omega)

/-- Claim C3 witness: 32-bit debug build, `allocate 3` then
`deallocate` with wrong size 2 aborts. -/
theorem C3_wrong_size_aborts_witness :
    deallocate ⟨false, true, 8⟩ (allocSt ⟨false, true, 8⟩ (initState ⟨false, true, 8⟩) 3) 2 2
      = none :=
  C3_wrong_size_aborts ⟨false, true, 8⟩ (initState ⟨false, true, 8⟩) 3 2 2
    (allocSt ⟨false, true, 8⟩ (initState ⟨false, true, 8⟩) 3) rfl rfl
    (by decide) (by decide)

/-- Claim C4: on every configuration — in particular on a 64-bit platform,
where a native word holds two external item widths — the external size
`n` passed to `allocate` is halved (rounded up) exactly once, before any
bookkeeping: on the bump path the cursor advances by exactly
`arch_size n + DEBUG_OFFSET` (not by a re-halved value), the debug header
records that same once-halved internal size, and `deallocate` with the
same external `n` performs the identical single halving, so its
recorded-size check passes and the immediate round trip restores the
cursor.  The externally visible size contract (pass the same `n` to both
operations) is therefore architecture-independent. -/
theorem C4_size_halved_once (c : Config) (st : DataAllocator) (n p : Nat) (ps : List Nat)
    (h0 : 0 < n) (hn : n ≤ c.chunkSize)
    (hfl : st.freeMem (arch_size c n + DEBUG_OFFSET c) = [])
    (hfit : st.freePtr + (arch_size c n + DEBUG_OFFSET c) ≤ st.endFree)
    (hmp : st.memPool = p :: ps) (hple : p ≤ st.freePtr)
    (hps : ∀ q ∈ ps, ¬ (q ≤ st.freePtr ∧ st.freePtr < q + c.chunkSize)) :
    allocPtr c st n = some (st.freePtr + DEBUG_OFFSET c) ∧
    (allocSt c st n).freePtr = st.freePtr + (arch_size c n + DEBUG_OFFSET c) ∧
    (c.debug = true → (allocSt c st n).hdr st.freePtr = arch_size c n + DEBUG_OFFSET c) ∧
    (deallocate c (allocSt c st n) (st.freePtr + DEBUG_OFFSET c) n).map DataAllocator.freePtr
      = some st.freePtr := by
  have h0' : ¬ n = 0 := by omega
  have hb : ¬ (c.debug = true ∧ c.chunkSize < n) := by
    rintro ⟨-, hlt⟩; omega
  have hk1 : 1 ≤ arch_size c n + DEBUG_OFFSET c := by
    unfold arch_size DEBUG_OFFSET
    split <;> omega
  have h := allocate_eq_bump c st n h0' hb hfl hfit
  have hst : allocSt c st n =
      { st with
          freePtr := st.freePtr + (arch_size c n + DEBUG_OFFSET c)
          hdr := if c.debug then
                   upd st.hdr st.freePtr (arch_size c n + DEBUG_OFFSET c)
                 else st.hdr } := by
    simp [allocSt, h]
  have hdata : st.freePtr + DEBUG_OFFSET c - DEBUG_OFFSET c = st.freePtr := by
    omega
  have hhdr : c.debug = true →
      (allocSt c st n).hdr st.freePtr = arch_size c n + DEBUG_OFFSET c := by
    intro hdbg
    rw [hst]
    simp [hdbg, upd_self]
  refine ⟨by simp [allocPtr, h], by rw [hst], hhdr, ?_⟩
  have hanyfalse : ps.any
      (fun q => decide (q ≤ st.freePtr) && decide (st.freePtr < q + c.chunkSize)) = false := by
    rw [List.any_eq_false]
    intro q hq
    simp only [Bool.and_eq_true, decide_eq_true_eq, not_and]
    intro h1 h2
    exact hps q hq ⟨h1, h2⟩
  have hpools_in : hasInPools c (allocSt c st n) st.freePtr
      (arch_size c n + DEBUG_OFFSET c) = true := by
    rw [hst]
    simp only [hasInPools, hmp]
    have h1 : (decide (p ≤ st.freePtr) &&
        decide (st.freePtr < st.freePtr + (arch_size c n + DEBUG_OFFSET c))) = true := by
      simp only [Bool.and_eq_true, decide_eq_true_eq]
      omega
    rw [h1]
    simp [hfl]
  have hpools_out : hasInPools c
      { allocSt c st n with freePtr := st.freePtr } st.freePtr
      (arch_size c n + DEBUG_OFFSET c) = false := by
    rw [hst]
    simp only [hasInPools, hmp]
    have h1 : (decide (p ≤ st.freePtr) && decide (st.freePtr < st.freePtr)) = false := by
      simp
    rw [h1, hanyfalse]
    simp
  unfold deallocate
  rw [if_neg h0']
  rw [if_neg (α := Option DataAllocator) ?c1]
  case c1 =>
    rintro ⟨hdbg, hne⟩
    apply hne
    rw [hdata]
    exact hhdr hdbg
  rw [if_neg (α := Option DataAllocator) ?c2]
  case c2 =>
    rintro ⟨hdbg, hne⟩
    apply hne
    rw [hdata]
    exact hpools_in
  rw [hdata, if_pos (by rw [hst])]
  rw [if_neg (α := Option DataAllocator) ?c3]
  case c3 =>
    rintro ⟨hdbg, hin⟩
    rw [hpools_out] at hin
    exact Bool.noConfusion hin
  rfl

/-- Claim C4 witness: 64-bit debug build, `allocate 3` advances the
cursor by `arch_size 3 + 1 = 3` words, records 3 in the header, and the
immediate `deallocate` with the same external size 3 succeeds and
restores the cursor. -/
theorem C4_size_halved_once_witness :
    allocPtr ⟨true, true, 8⟩ (initState ⟨true, true, 8⟩) 3 = some 2 ∧
    (allocSt ⟨true, true, 8⟩ (initState ⟨true, true, 8⟩) 3).freePtr = 4 ∧
    (allocSt ⟨true, true, 8⟩ (initState ⟨true, true, 8⟩) 3).hdr 1 = 3 ∧
    (deallocate ⟨true, true, 8⟩ (allocSt ⟨true, true, 8⟩ (initState ⟨true, true, 8⟩) 3) 2
      3).map DataAllocator.freePtr = some 1 := by
  have h := C4_size_halved_once ⟨true, true, 8⟩ (initState ⟨true, true, 8⟩) 3 1 []
    (by decide) (by decide) rfl (by decide) rfl (by decide) (by simp)
  exact ⟨h.1, h.2.1, h.2.2.1 rfl, h.2.2.2⟩

/-- Claim C8 counterexample: at size 0 the two strategies are not
interchangeable: the pooled `base_allocate` returns the absent value
(null), while the pass-through `base_new` returns a present (non-null)
buffer, so the "absent under the same conditions" contract fails at
size 0. -/
theorem C8_counterexample_size_zero :
    (base_allocate ⟨false, false, 8⟩ (initState ⟨false, false, 8⟩) 0).map Prod.fst
      = some none ∧
    (base_new ⟨1, []⟩ 0).1 = some 1 := by
  decide

/-- Claim C8 (amended): on the valid size range `0 < n ≤ CHUNK_SIZE` the
pooled strategy (`base_allocate`/`base_deallocate`) and the pass-through
adapter (`base_new`/`base_delete`) are interchangeable behind the
two-operation contract: both return a present fresh buffer (never
absent), the pass-through `base_delete` releases exactly the buffer the
matching `base_new` returned, and a successful pooled `base_deallocate`
releases the matching block (retreating the cursor to its start or
putting it at the head of its size class's free list).  At `n = 0` the
absent-conditions differ, per the counterexample. -/
theorem C8_interchangeable_on_valid_sizes (c : Config) (st : DataAllocator)
    (nst : NewState) (n : Nat) (h0 : 0 < n) (hn : n ≤ c.chunkSize)
    (hfresh : ∀ q ∈ nst.live, ¬ q.1 = nst.next) :
    (∃ p st₁, base_allocate c st n = some (some p, st₁)) ∧
    (base_new nst n).1.isSome = true ∧
    (base_delete (base_new nst n).2 nst.next).live = nst.live ∧
    (∀ p st₁ st₂, base_allocate c st n = some (some p, st₁) →
      base_deallocate c st₁ p n = some st₂ →
      st₂.freePtr = p - DEBUG_OFFSET c ∨
        (p - DEBUG_OFFSET c) ∈ st₂.freeMem (arch_size c n + DEBUG_OFFSET c)) := by
  refine ⟨allocate_pos_some c st n h0 hn, rfl, ?_, ?_⟩
  · simp only [base_new, base_delete, List.filter_cons]
    rw [if_neg (by simp)]
    exact List.filter_eq_self.mpr (by
      intro q hq
      simpa using hfresh q hq)
  · intro p st₁ st₂ ha hd
    have h0' : ¬ n = 0 := by omega
    rcases deallocate_some_cases c st₁ p n st₂ h0' hd with ⟨-, hst⟩ | ⟨-, hst⟩
    · subst hst; exact Or.inl rfl
    · subst hst
      right
      simp [upd]

/-- Claim C8 witness: 32-bit release build, size 3: the pooled allocator
returns block 1 and releasing it retreats the cursor; the pass-through
returns buffer 5 and deleting it restores the live list. -/
theorem C8_interchangeable_on_valid_sizes_witness :
    (∃ p st₁, base_allocate ⟨false, false, 8⟩ (initState ⟨false, false, 8⟩) 3
      = some (some p, st₁)) ∧
    (base_new ⟨5, [(2, 3)]⟩ 3).1.isSome = true ∧
    (base_delete (base_new ⟨5, [(2, 3)]⟩ 3).2 5).live = [(2, 3)] ∧
    ((deallocSt ⟨false, false, 8⟩ (allocSt ⟨false, false, 8⟩ (initState ⟨false, false, 8⟩) 3)
        1 3).freePtr = 1 ∨
      (1 : Nat) ∈ (deallocSt ⟨false, false, 8⟩
        (allocSt ⟨false, false, 8⟩ (initState ⟨false, false, 8⟩) 3) 1 3).freeMem 3) := by
  have h := C8_interchangeable_on_valid_sizes ⟨false, false, 8⟩ (initState ⟨false, false, 8⟩)
    ⟨5, [(2, 3)]⟩ 3 (by decide) (by decide) (by decide)
  exact ⟨h.1, h.2.1, h.2.2.1, h.2.2.2 1
    (allocSt ⟨false, false, 8⟩ (initState ⟨false, false, 8⟩) 3)
    (deallocSt ⟨false, false, 8⟩ (allocSt ⟨false, false, 8⟩ (initState ⟨false, false, 8⟩) 3) 1 3)
    rfl rfl⟩

/-- Claim C5 counterexample (64-bit release build, `CHUNK_SIZE = 8`):
chunk [1, 9) with cursor at 7 and empty free lists, so the consumed
count is 8 - 0 - 2 = 6 words.  `allocate 5` spills to a new chunk,
filing the 2-word tail under class `arch_size 2 = 1`, and the immediate
`deallocate` of the returned block succeeds but leaves the consumed
count at 2*8 - 1 - 8 = 7 words, not 6: one word of the tail has leaked
out of the accounting. -/
theorem C5_counterexample_64bit :
    let c : Config := ⟨true, false, 8⟩
    let st : DataAllocator := ⟨[1], 7, 9, fun _ => [], fun _ => 0, 11, [1], []⟩
    allocPtr c st 5 = some 11 ∧
    (deallocate c (allocSt c st 5) 11 5).map (consumed c) = some 7 ∧
    consumed c st = 6 := by
  decide

/-- Claim C5 (amended): on a 32-bit configuration, for every valid `n`
(`0 < n ≤ CHUNK_SIZE`) and every state whose cursor lies within the
current chunk, an immediate `deallocate (allocate n) n` round trip with
nothing intervening leaves the consumed count (total chunk words minus
free-list words minus the current free tail, as `printStats` computes
it) unchanged.  (On 64-bit builds the chunk-spill path can change the
count, per the counterexample, because the leftover tail is filed under
the halved class index.) -/
theorem C5_roundtrip_consumed_32bit (c : Config) (st : DataAllocator) (n ptr : Nat)
    (st₁ st₂ : DataAllocator)
    (h32 : c.is64 = false)
    (h0 : 0 < n) (hn : n ≤ c.chunkSize)
    (hcur : st.freePtr ≤ st.endFree)
    (htail : st.endFree ≤ st.freePtr + c.chunkSize)
    (ha : allocate c st n = some (some ptr, st₁))
    (hd : deallocate c st₁ ptr n = some st₂) :
    consumed c st₂ = consumed c st := by
  have h0' : ¬ n = 0 := by omega
  have hb : ¬ (c.debug = true ∧ c.chunkSize < n) := by
    rintro ⟨-, hlt⟩; omega
  have harch : arch_size c n = n := by simp [arch_size, h32]
  have hoff : DEBUG_OFFSET c ≤ 1 := by
    unfold DEBUG_OFFSET; split <;> omega
  have hkB : arch_size c n + DEBUG_OFFSET c < c.chunkSize + 2 := by
    rw [harch]; omega
  rcases hfl : st.freeMem (arch_size c n + DEBUG_OFFSET c) with - | ⟨d, rest⟩
  · by_cases hfit : st.freePtr + (arch_size c n + DEBUG_OFFSET c) ≤ st.endFree
    · -- bump path: the immediate deallocate is always a tail merge
      rw [allocate_eq_bump c st n h0' hb hfl hfit] at ha
      simp only [Option.some.injEq, Prod.mk.injEq] at ha
      obtain ⟨hp, hs⟩ := ha
      subst hp
      subst hs
      rcases deallocate_some_cases c _ _ n st₂ h0' hd with ⟨-, hst⟩ | ⟨hne, hst⟩
      · subst hst
        simp [consumed, memInFreeList, Nat.add_sub_cancel]
      · exfalso
        apply hne
        simp [Nat.add_sub_cancel]
    · -- chunk-spill path: tail pushed (exact class on 32-bit), then merge
      rw [allocate_eq_pool c st n h0' hb hfl hfit] at ha
      simp only [Option.some.injEq, Prod.mk.injEq] at ha
      obtain ⟨hp, hs⟩ := ha
      subst hp
      subst hs
      rcases deallocate_some_cases c _ _ n st₂ h0' hd with ⟨-, hst⟩ | ⟨hne, hst⟩
      · subst hst
        by_cases hml : st.endFree - st.freePtr = 0
        · have hEF : st.endFree = st.freePtr := by omega
          simp only [consumed, memInFreeList, hEF, Nat.sub_self, ne_eq,
            not_true_eq_false, if_false, Nat.add_sub_cancel]
          push_cast [List.length_cons]
          ring
        · have harchm : arch_size c (st.endFree - st.freePtr) = st.endFree - st.freePtr := by
            simp [arch_size, h32]
          have hmB : st.endFree - st.freePtr < c.chunkSize + 2 := by omega
          simp only [consumed, memInFreeList, if_pos (by omega : st.endFree - st.freePtr ≠ 0),
            Nat.add_sub_cancel, harchm]
          rw [sum_upd _ _ _ _ hmB]
          have hEF : ((st.endFree - st.freePtr : Nat) : Int)
              = (st.endFree : Int) - (st.freePtr : Int) := by
            omega
          push_cast [List.length_cons]
          rw [hEF]
          ring
      · exfalso
        apply hne
        simp [Nat.add_sub_cancel]
  · -- free-list pop path
    rw [allocate_eq_pop c st n d rest h0' hb hfl] at ha
    simp only [Option.some.injEq, Prod.mk.injEq] at ha
    obtain ⟨hp, hs⟩ := ha
    subst hp
    subst hs
    have hlen : ((st.freeMem (arch_size c n + DEBUG_OFFSET c)).length : Int)
        = (rest.length : Int) + 1 := by
      rw [hfl]; push_cast [List.length_cons]; ring
    rcases deallocate_some_cases c _ _ n st₂ h0' hd with ⟨heq, hst⟩ | ⟨hne, hst⟩
    · -- the popped block happened to end at the cursor: tail merge
      subst hst
      have hdk : d + (arch_size c n + DEBUG_OFFSET c) = st.freePtr := by
        simpa [Nat.add_sub_cancel] using heq
      simp only [consumed, memInFreeList, Nat.add_sub_cancel]
      rw [sum_upd _ _ _ _ hkB, hlen]
      have hd' : ((d : Int) + (arch_size c n + DEBUG_OFFSET c : Nat))
          = (st.freePtr : Int) := by
        exact_mod_cast congrArg (Nat.cast : Nat → Int) hdk
      push_cast at hd' ⊢
      linarith
    · -- pushed back onto its own class
      subst hst
      simp only [consumed, memInFreeList, Nat.add_sub_cancel, upd_self]
      rw [sum_upd _ _ _ _ hkB, sum_upd _ _ _ _ hkB, hlen, upd_self]
      push_cast [List.length_cons]
      ring

/-- Claim C5 witness: 32-bit debug build, `CHUNK_SIZE = 8`, fresh
allocator: `deallocate (allocate 4) 4` leaves the consumed count at its
initial value 0. -/
theorem C5_roundtrip_consumed_32bit_witness :
    deallocate ⟨false, true, 8⟩ (allocSt ⟨false, true, 8⟩ (initState ⟨false, true, 8⟩) 4)
      2 4 = some (deallocSt ⟨false, true, 8⟩
        (allocSt ⟨false, true, 8⟩ (initState ⟨false, true, 8⟩) 4) 2 4) ∧
    consumed ⟨false, true, 8⟩ (deallocSt ⟨false, true, 8⟩
      (allocSt ⟨false, true, 8⟩ (initState ⟨false, true, 8⟩) 4) 2 4)
      = consumed ⟨false, true, 8⟩ (initState ⟨false, true, 8⟩) :=
  ⟨rfl, C5_roundtrip_consumed_32bit ⟨false, true, 8⟩ (initState ⟨false, true, 8⟩) 4 2
    (allocSt ⟨false, true, 8⟩ (initState ⟨false, true, 8⟩) 4)
    (deallocSt ⟨false, true, 8⟩ (allocSt ⟨false, true, 8⟩ (initState ⟨false, true, 8⟩) 4) 2 4)
    rfl (by decide) (by decide) (by decide) (by decide) rfl rfl⟩

end DataAlloc
